import Mathlib

/-!
Verification development for the DragnDrop file-transfer engine.

The definitions below are a shallow embedding of the transfer core:
`utils.py` (the `Transfer` runnable, its copy loops and helpers) and
`view.py` (the `WorkerManager` coordinator).  Python dicts are modelled
as association lists with Python's update semantics (an update of an
existing key keeps its position, a new key is appended); float
arithmetic on sizes and percentages is modelled with `ℚ`; signal
emissions are modelled as an explicit event list; exceptions are
modelled with `Except` / explicit outcome branches.  GUI-only side
effects (`show`, `hide`, widget updates, logging via `print`) are not
part of the state.
-/

/-- Outcome code for a successful copy (`utils.py`, `ON_SUCCESS = 1`). -/
def ON_SUCCESS : ℕ := 1

/-- Outcome code for a cancelled copy (`utils.py`, `ON_CANCEL = 2`). -/
def ON_CANCEL : ℕ := 2

/-- Outcome code for a failed copy (`utils.py`, `ON_ERROR = 3`). -/
def ON_ERROR : ℕ := 3

/-- One emitted signal of `TransferSignals` (`utils.py`).
`progress` carries the computed percentage (float in the source, `ℚ` here);
`transferred` carries cumulative bytes; `finished` carries the job id;
`duplicate` carries the destination path. -/
inductive Event where
  | progress (jobId : String) (pct : ℚ)
  | transferred (jobId : String) (bytes : ℚ)
  | finished (jobId : String)
  | duplicate (path : String)
deriving DecidableEq, Repr

/-- The percentage values carried by the progress events of a trace, in order. -/
def progressValues (evs : List Event) : List ℚ :=
  evs.filterMap fun e =>
    match e with
    | Event.progress _ p => some p
    | _ => none

/-- Whether an event is a progress event. -/
def isProgressEvent : Event → Bool
  | Event.progress _ _ => true
  | _ => false

/-- State of one `Transfer` runnable (`utils.py`): source path, destination
path (already resolved to a file path, as `__init__` does when `dst` is a
directory), declared size in bytes, the mutable `running` flag (0 or 1, as in
the source), and the unique job id. -/
structure Transfer where
  src : String
  dst : String
  size : ℚ
  running : ℕ
  job_id : String
deriving DecidableEq, Repr

/-- Embedding of `Transfer._copyfileobj_readinto` (`utils.py` lines 71-113).
The source stream is a list of read results: `some n` is a `readinto` call
filling `n` bytes (`n = 0` is an end-of-stream read), `none` is an I/O
exception raised at that read; an exhausted list also reads as end of stream.
The cooperative `running` flag is modelled by `cancelAfter`: the flag reads
true at the post-chunk check while the number of chunks processed so far is
`< cancelAfter`.  Returns (emitted events, outcome code, bytes written). -/
def Transfer._copyfileobj_readinto (jobId : String) (size : ℚ) (cancelAfter : ℕ) :
    List (Option ℕ) → ℕ → ℕ → List Event × ℕ × ℕ
  | [], _, bytes => ([Event.finished jobId], ON_SUCCESS, bytes)
  | none :: _, _, bytes =>
      ([Event.progress jobId 100, Event.finished jobId], ON_ERROR, bytes)
  | some n :: rest, chunksDone, bytes =>
      if n = 0 then ([Event.finished jobId], ON_SUCCESS, bytes)
      else
        let bytes2 := bytes + n
        let pct : ℚ := ((bytes2 : ℚ) * 100) / size
        let evs : List Event :=
          [Event.transferred jobId (bytes2 : ℚ), Event.progress jobId pct]
        if chunksDone + 1 < cancelAfter then
          let r := Transfer._copyfileobj_readinto jobId size cancelAfter rest
            (chunksDone + 1) bytes2
          (evs ++ r.1, r.2.1, r.2.2)
        else
          (evs ++ [Event.progress jobId 100, Event.finished jobId], ON_CANCEL, bytes2)

/-- Embedding of `Transfer._copyfileobj` (`utils.py` lines 115-153), the `read`/`write`
variant used for zero-size files.  Same stream model as the `readinto`
variant.  When `size = 0` and a non-empty chunk is read, computing
`(progress * 100) / self.size` raises `ZeroDivisionError`, which the
`except` clause turns into the error path (the chunk was already written). -/
def Transfer._copyfileobj (jobId : String) (size : ℚ) (cancelAfter : ℕ) :
    List (Option ℕ) → ℕ → ℕ → List Event × ℕ × ℕ
  | [], _, bytes => ([Event.finished jobId], ON_SUCCESS, bytes)
  | none :: _, _, bytes =>
      ([Event.progress jobId 100, Event.finished jobId], ON_ERROR, bytes)
  | some n :: rest, chunksDone, bytes =>
      if n = 0 then ([Event.finished jobId], ON_SUCCESS, bytes)
      else if size = 0 then
        ([Event.progress jobId 100, Event.finished jobId], ON_ERROR, bytes + n)
      else
        let bytes2 := bytes + n
        let pct : ℚ := ((bytes2 : ℚ) * 100) / size
        let evs : List Event :=
          [Event.transferred jobId (bytes2 : ℚ), Event.progress jobId pct]
        if chunksDone + 1 < cancelAfter then
          let r := Transfer._copyfileobj jobId size cancelAfter rest
            (chunksDone + 1) bytes2
          (evs ++ r.1, r.2.1, r.2.2)
        else
          (evs ++ [Event.progress jobId 100, Event.finished jobId], ON_CANCEL, bytes2)

/-- How opening the two streams in `Transfer._copyfile` went: both opens
succeeded, or a `PermissionError` was raised opening the source (destination
never created) or the destination. -/
inductive OpenOutcome where
  | ok
  | srcPermissionError
  | dstPermissionError
deriving DecidableEq, Repr

/-- Embedding of `Transfer._copyfile` (`utils.py` lines 155-169): on `PermissionError`
from either `open`, emit progress 100 and finished and return `ON_ERROR`;
otherwise dispatch on `self.size > 0` between the `readinto` loop and the
zero-size `read` loop. -/
def Transfer._copyfile (t : Transfer) (openOut : OpenOutcome)
    (chunks : List (Option ℕ)) (cancelAfter : ℕ) : List Event × ℕ × ℕ :=
  match openOut with
  | OpenOutcome.ok =>
      if t.size > 0 then
        Transfer._copyfileobj_readinto t.job_id t.size cancelAfter chunks 0 0
      else
        Transfer._copyfileobj t.job_id t.size cancelAfter chunks 0 0
  | OpenOutcome.srcPermissionError =>
      ([Event.progress t.job_id 100, Event.finished t.job_id], ON_ERROR, 0)
  | OpenOutcome.dstPermissionError =>
      ([Event.progress t.job_id 100, Event.finished t.job_id], ON_ERROR, 0)

/-- Which filesystem deletion `delete_file` performs. -/
inductive DeleteOp where
  | trashOp
  | unlinkOp
deriving DecidableEq, Repr

/-- Embedding of `delete_file` (`utils.py` lines 211-224): `send2trash` when `trash` is
true, `os.unlink` (permanent) otherwise. -/
def delete_file (trash : Bool) : DeleteOp :=
  if trash then DeleteOp.trashOp else DeleteOp.unlinkOp

/-- Result of `Transfer.copy`: the event trace, the outcome code, bytes
written to the destination, whether `copy_stat` ran, which deletion (if any)
was performed on the destination, and whether the destination path exists
afterwards (`open(dst, 'wb')` creates it; the cancel-path `unlink` of the
file just written is modelled as succeeding). -/
structure CopyResult where
  events : List Event
  outcome : ℕ
  bytesWritten : ℕ
  statCopied : Bool
  deleteOp : Option DeleteOp
  dstExistsAfter : Bool
deriving DecidableEq, Repr

/-- Embedding of `Transfer.copy` (`utils.py` lines 171-183): run `_copyfile`; on
`ON_SUCCESS` copy file stats, on `ON_CANCEL` delete the incomplete
destination file with `delete_file(dst)` (default `trash=False`). -/
def Transfer.copy (t : Transfer) (openOut : OpenOutcome)
    (chunks : List (Option ℕ)) (cancelAfter : ℕ)
    (dstExistedBefore : Bool) : CopyResult :=
  let r := Transfer._copyfile t openOut chunks cancelAfter
  let del : Option DeleteOp :=
    if r.2.1 = ON_CANCEL then some (delete_file false) else none
  { events := r.1
    outcome := r.2.1
    bytesWritten := r.2.2
    statCopied := decide (r.2.1 = ON_SUCCESS)
    deleteOp := del
    dstExistsAfter :=
      if del.isSome then false
      else dstExistedBefore ||
        (match openOut with
         | OpenOutcome.ok => true
         | _ => false) }

/-- Embedding of `_basename` (`utils.py` lines 192-198): strip trailing separators, then
take the last path component (POSIX separator). -/
def _basename (path : String) : String :=
  ((path.dropRightWhile fun c => c = '/').splitOn "/").getLastD ""

/-- The filesystem facts `file_exists` consults. -/
structure FSView where
  isDir : String → Bool
  pathExists : String → Bool

/-- Embedding of `file_exists` (`utils.py` lines 201-208): if `dst` is a directory,
resolve to `dst/basename(src)`, then test existence of the resolved path. -/
def file_exists (src dst : String) (fs : FSView) : Bool :=
  let dst2 := if fs.isDir dst then dst ++ "/" ++ _basename src else dst
  fs.pathExists dst2

/-- Result of `Transfer.run` (whose Python return value is unused: only the
emitted events and filesystem effects matter). -/
structure RunResult where
  events : List Event
  bytesWritten : ℕ
  deleteOp : Option DeleteOp
deriving Repr

/-- Embedding of `Transfer.run` (`utils.py` lines 58-69): if `file_exists(src, dst)`,
emit `duplicate(dst)`, `progress(job_id, 100)`, `finished(job_id)` and stop;
otherwise delegate to `copy`. -/
def Transfer.run (t : Transfer) (fs : FSView) (openOut : OpenOutcome)
    (chunks : List (Option ℕ)) (cancelAfter : ℕ) : RunResult :=
  if file_exists t.src t.dst fs then
    { events := [Event.duplicate t.dst, Event.progress t.job_id 100,
                 Event.finished t.job_id]
      bytesWritten := 0
      deleteOp := none }
  else
    let r := Transfer.copy t openOut chunks cancelAfter (fs.pathExists t.dst)
    { events := r.events, bytesWritten := r.bytesWritten, deleteOp := r.deleteOp }

/-- Python-dict insertion on an association list: updating an existing key
keeps its position, a fresh key is appended at the end. -/
def dictInsert {α : Type} (k : String) (v : α) :
    List (String × α) → List (String × α)
  | [] => [(k, v)]
  | (k2, v2) :: rest =>
      if k2 = k then (k, v) :: rest else (k2, v2) :: dictInsert k v rest

/-- Python-dict `del` on an association list (removes the entry with the key). -/
def dictRemove {α : Type} (k : String) :
    List (String × α) → List (String × α)
  | [] => []
  | (k2, v2) :: rest =>
      if k2 = k then rest else (k2, v2) :: dictRemove k rest

/-- A Python exception escaping a `WorkerManager` slot. -/
inductive PyError where
  | keyError
deriving DecidableEq, Repr

/-- State of the `WorkerManager` coordinator (`view.py`): the
`_workers_progress`, `_active_workers` and `_transferred` dicts, the running
totals, the collected duplicate paths, plus — for the effects the claims talk
about — the worker-pool queue (`files_threadpool`, concurrency 1) and the
job ids whose signals were connected in `enqueue`. -/
structure WorkerManager where
  workers_progress : List (String × ℚ)
  active_workers : List (String × Transfer)
  transferred : List (String × ℚ)
  total_workers : ℕ
  total_size : ℚ
  duplicates : List String
  pool_queue : List Transfer
  connected : List String
deriving DecidableEq, Repr

/-- A coordinator with no state yet (a fresh `WorkerManager.__init__`). -/
def WorkerManager.initial : WorkerManager :=
  { workers_progress := []
    active_workers := []
    transferred := []
    total_workers := 0
    total_size := 0
    duplicates := []
    pool_queue := []
    connected := [] }

/-- Embedding of `WorkerManager.is_valid` (`view.py` lines 186-195): build
`remaining = {w.src: (w.src, w.dst) for w in active_workers.values()}` — a
dict comprehension keyed by source path, so a later active worker with the
same source overwrites an earlier one — then reject exactly when the looked-up
pair matches the incoming worker's (src, dst). -/
def WorkerManager.is_valid (m : WorkerManager) (worker : Transfer) : Bool :=
  match (m.active_workers.foldl
      (fun d p => dictInsert p.2.src (p.2.src, p.2.dst) d) []).lookup worker.src with
  | some sd => !(sd.1 == worker.src && sd.2 == worker.dst)
  | none => true

/-- Embedding of `WorkerManager.enqueue` (`view.py` lines 109-124): if `is_valid`, connect
the worker's signals, register it in `_active_workers`, bump the totals and
start it on the thread pool (queued, concurrency 1); otherwise do nothing. -/
def WorkerManager.enqueue (m : WorkerManager) (worker : Transfer) : WorkerManager :=
  if WorkerManager.is_valid m worker then
    { m with
      connected := m.connected ++ [worker.job_id]
      active_workers := dictInsert worker.job_id worker m.active_workers
      total_workers := m.total_workers + 1
      total_size := m.total_size + worker.size
      pool_queue := m.pool_queue ++ [worker] }
  else m

/-- Embedding of `WorkerManager.receive_progress` (`view.py` lines 126-127). -/
def WorkerManager.receive_progress (m : WorkerManager) (jobId : String)
    (progress : ℚ) : WorkerManager :=
  { m with workers_progress := dictInsert jobId progress m.workers_progress }

/-- Embedding of `WorkerManager.receive_transferred` (`view.py` lines 129-130). -/
def WorkerManager.receive_transferred (m : WorkerManager) (jobId : String)
    (size : ℚ) : WorkerManager :=
  { m with transferred := dictInsert jobId size m.transferred }

/-- Embedding of `WorkerManager.receive_dups` (`view.py` lines 132-133). -/
def WorkerManager.receive_dups (m : WorkerManager) (file : String) : WorkerManager :=
  { m with duplicates := m.duplicates ++ [file] }

/-- Embedding of `WorkerManager.calculate_progress` (`view.py` lines 135-139): 0 when the
progress dict is empty or `total_workers` is 0, otherwise the sum of the
stored percentages divided by `total_workers`. -/
def WorkerManager.calculate_progress (m : WorkerManager) : ℚ :=
  if m.workers_progress = [] ∨ m.total_workers = 0 then 0
  else (m.workers_progress.map Prod.snd).sum / (m.total_workers : ℚ)

/-- Embedding of `WorkerManager.done` (`view.py` lines 157-169): when `_active_workers` is
non-empty, `del self._active_workers[job_id]` — which raises `KeyError` when
the id is absent; then, if every stored percentage is 100 and the active map
is empty, clear all aggregation state (the `all_done` emission, duplicate
window and `hide()` are GUI effects; `handle_dups` clears `duplicates`). -/
def WorkerManager.done (m : WorkerManager) (jobId : String) :
    Except PyError WorkerManager :=
  let step1 : Except PyError WorkerManager :=
    if m.active_workers = [] then Except.ok m
    else if (m.active_workers.lookup jobId).isSome then
      Except.ok { m with active_workers := dictRemove jobId m.active_workers }
    else Except.error PyError.keyError
  match step1 with
  | Except.error e => Except.error e
  | Except.ok m1 =>
      if (m1.workers_progress.all fun p => p.2 == 100) && m1.active_workers.isEmpty then
        Except.ok { m1 with
          workers_progress := []
          transferred := []
          total_workers := 0
          total_size := 0
          duplicates := [] }
      else Except.ok m1

/-- Embedding of `WorkerManager.cancel` (`view.py` lines 171-177): clear the thread-pool
queue, set `running = 0` on every active worker (returned as the second
component, since the workers are shared with the pool), and clear
`_active_workers`. -/
def WorkerManager.cancel (m : WorkerManager) : WorkerManager × List Transfer :=
  ({ m with pool_queue := [], active_workers := [] },
   m.active_workers.map fun p => { p.2 with running := 0 })

/-- Defined from the spec's words, for comparison with
`WorkerManager.calculate_progress`: "combined percentage = arithmetic mean of
all tracked per-job percentages (0 when no jobs tracked yet)". -/
def spec_mean_tracked (m : WorkerManager) : ℚ :=
  if m.workers_progress = [] then 0
  else (m.workers_progress.map Prod.snd).sum / (m.workers_progress.length : ℚ)

/-- The worker registered in the state exercising the finished-event handler. -/
def doneBugWorker : Transfer :=
  { src := "srcA", dst := "dstA", size := 5, running := 1, job_id := "a" }

/-- A coordinator state whose active-job map is non-empty (job "a" is still
registered) while job id "b" is not present — the situation the finished-event
handler must tolerate according to the spec. -/
def doneBugState : WorkerManager :=
  { workers_progress := [("a", 50)]
    active_workers := [("a", doneBugWorker)]
    transferred := [("a", 2)]
    total_workers := 1
    total_size := 5
    duplicates := []
    pool_queue := []
    connected := ["a"] }

/-- C1: calling the finished-event handler `WorkerManager.done` with a job id
absent from a *non-empty* active-job map raises `KeyError`: the guard
`if self._active_workers:` (whose comment says "avoid KeyError") only skips
the `del` when the map is empty, so the removal does not tolerate not-found
in the non-empty case the claim describes. -/
theorem done_raises_keyError_on_absent_id :
    WorkerManager.done doneBugState "b" = Except.error PyError.keyError := by
  rfl

/-- C7: when the resolved destination already exists (`file_exists` is true),
`Transfer.run` emits exactly `duplicate(dst)`, `progress(job_id, 100)`,
`finished(job_id)` in that order, writes no bytes and deletes nothing. -/
theorem run_duplicate_skips_copy (t : Transfer) (fs : FSView)
    (op : OpenOutcome) (chunks : List (Option ℕ)) (k : ℕ)
    (h : file_exists t.src t.dst fs = true) :
    Transfer.run t fs op chunks k =
      { events := [Event.duplicate t.dst, Event.progress t.job_id 100,
                   Event.finished t.job_id]
        bytesWritten := 0
        deleteOp := none } := by
  simp [Transfer.run, h]

/-- A filesystem view in which every path exists. -/
def dupFS : FSView := { isDir := fun _ => false, pathExists := fun _ => true }

/-- A transfer whose destination already exists under `dupFS`. -/
def dupTransfer : Transfer :=
  { src := "/src/a.txt", dst := "/dst/a.txt", size := 3, running := 0, job_id := "jd" }

/-- Witness for C7 at a concrete transfer and filesystem. -/
theorem run_duplicate_skips_copy_witness :
    Transfer.run dupTransfer dupFS OpenOutcome.ok [] 0 =
      { events := [Event.duplicate dupTransfer.dst,
                   Event.progress dupTransfer.job_id 100,
                   Event.finished dupTransfer.job_id]
        bytesWritten := 0
        deleteOp := none } :=
  run_duplicate_skips_copy dupTransfer dupFS OpenOutcome.ok [] 0 rfl

/-- C8: a `PermissionError` opening either stream makes `Transfer.copy`
terminate with `ON_ERROR`, emitting exactly a progress event of 100 followed
by a finished event (no distinct error event), with no bytes written, no
metadata copy, and no deletion of the destination attempted. -/
theorem copy_permission_error_shape (t : Transfer) (op : OpenOutcome)
    (chunks : List (Option ℕ)) (k : ℕ) (b : Bool)
    (h : op = OpenOutcome.srcPermissionError ∨ op = OpenOutcome.dstPermissionError) :
    (Transfer.copy t op chunks k b).outcome = ON_ERROR ∧
    (Transfer.copy t op chunks k b).events =
      [Event.progress t.job_id 100, Event.finished t.job_id] ∧
    (Transfer.copy t op chunks k b).deleteOp = none ∧
    (Transfer.copy t op chunks k b).bytesWritten = 0 ∧
    (Transfer.copy t op chunks k b).statCopied = false := by
  rcases h with h | h <;> subst h <;>
    simp [Transfer.copy, Transfer._copyfile, ON_ERROR, ON_CANCEL, ON_SUCCESS]

/-- The transfer used to witness the permission-error path. -/
def permTransfer : Transfer :=
  { src := "/src/p.txt", dst := "/dst/p.txt", size := 9, running := 0, job_id := "jp" }

/-- Witness for C8 at a concrete transfer with a source-open permission error. -/
theorem copy_permission_error_shape_witness :
    (Transfer.copy permTransfer OpenOutcome.srcPermissionError [] 0 false).outcome
      = ON_ERROR ∧
    (Transfer.copy permTransfer OpenOutcome.srcPermissionError [] 0 false).events =
      [Event.progress permTransfer.job_id 100, Event.finished permTransfer.job_id] ∧
    (Transfer.copy permTransfer OpenOutcome.srcPermissionError [] 0 false).deleteOp
      = none ∧
    (Transfer.copy permTransfer OpenOutcome.srcPermissionError [] 0 false).bytesWritten
      = 0 ∧
    (Transfer.copy permTransfer OpenOutcome.srcPermissionError [] 0 false).statCopied
      = false :=
  copy_permission_error_shape permTransfer OpenOutcome.srcPermissionError [] 0 false
    (Or.inl rfl)

/-- C10: `WorkerManager.cancel` clears the pool queue and the active-job map
and sets every active job's `running` flag to 0, while leaving the per-job
percentage map, the bytes-transferred map, the total job count, the total
byte volume and the duplicates list unchanged — so `calculate_progress` is
unchanged by the cancel. -/
theorem cancel_frame_effect (m : WorkerManager) :
    (WorkerManager.cancel m).1.workers_progress = m.workers_progress ∧
    (WorkerManager.cancel m).1.transferred = m.transferred ∧
    (WorkerManager.cancel m).1.total_workers = m.total_workers ∧
    (WorkerManager.cancel m).1.total_size = m.total_size ∧
    (WorkerManager.cancel m).1.duplicates = m.duplicates ∧
    (WorkerManager.cancel m).1.active_workers = [] ∧
    (WorkerManager.cancel m).1.pool_queue = [] ∧
    (∀ w ∈ (WorkerManager.cancel m).2, w.running = 0) ∧
    WorkerManager.calculate_progress (WorkerManager.cancel m).1 =
      WorkerManager.calculate_progress m := by
  refine ⟨rfl, rfl, rfl, rfl, rfl, rfl, rfl, ?_, rfl⟩
  intro w hw
  simp only [WorkerManager.cancel, List.mem_map] at hw
  obtain ⟨p, _, rfl⟩ := hw
  rfl

/-- The zero-size transfer used for the empty-file claim. -/
def zeroTransfer : Transfer :=
  { src := "/src/e.txt", dst := "/dst/e.txt", size := 0, running := 0, job_id := "jz" }

/-- C3 counterexample: for a zero-size source (declared size 0, empty stream,
both opens succeeding), the copy does complete with `ON_SUCCESS`, but its
event trace is just the finished event — the number of progress events is 0,
not the single progress event of 100 the claim requires. -/
theorem zero_size_copy_no_progress_event :
    (Transfer.copy zeroTransfer OpenOutcome.ok [] 1 false).outcome = ON_SUCCESS ∧
    (Transfer.copy zeroTransfer OpenOutcome.ok [] 1 false).events =
      [Event.finished "jz"] ∧
    ((Transfer.copy zeroTransfer OpenOutcome.ok [] 1 false).events.filter
        isProgressEvent).length ≠ 1 := by
  decide

/-- C3 (amended): for every zero-size source file (declared size 0, source
readable and destination writable, first read returning end of stream), the
copy completes with outcome `Success` and emits exactly one event — the
finished event — and *no* progress event; no chunk is ever written. -/
theorem zero_size_copy_success (t : Transfer) (k : ℕ) (b : Bool)
    (h : t.size = 0) :
    (Transfer.copy t OpenOutcome.ok [] k b).outcome = ON_SUCCESS ∧
    (Transfer.copy t OpenOutcome.ok [] k b).events = [Event.finished t.job_id] ∧
    (Transfer.copy t OpenOutcome.ok [] k b).bytesWritten = 0 ∧
    (Transfer.copy t OpenOutcome.ok [] k b).events.filter isProgressEvent = [] := by
  simp [Transfer.copy, Transfer._copyfile, h, Transfer._copyfileobj,
        ON_SUCCESS, ON_CANCEL, isProgressEvent]

/-- Witness for the amended C3 at a concrete zero-size transfer. -/
theorem zero_size_copy_success_witness :
    (Transfer.copy zeroTransfer OpenOutcome.ok [] 1 false).outcome = ON_SUCCESS ∧
    (Transfer.copy zeroTransfer OpenOutcome.ok [] 1 false).events =
      [Event.finished zeroTransfer.job_id] ∧
    (Transfer.copy zeroTransfer OpenOutcome.ok [] 1 false).bytesWritten = 0 ∧
    (Transfer.copy zeroTransfer OpenOutcome.ok [] 1 false).events.filter
      isProgressEvent = [] :=
  zero_size_copy_success zeroTransfer 1 false rfl

/-- Lookup after a Python-dict insertion: the inserted key maps to the new
value, every other key is unchanged. -/
lemma dictInsert_lookup {α : Type} (k k2 : String) (v : α) (d : List (String × α)) :
    (dictInsert k v d).lookup k2 = if k2 = k then some v else d.lookup k2 := by
  induction d with
  | nil =>
      by_cases h : k2 = k
      · subst h; simp [dictInsert, List.lookup]
      · have hb : (k2 == k) = false := beq_eq_false_iff_ne.mpr h
        simp [dictInsert, List.lookup, hb, h]
  | cons hd tl ih =>
      obtain ⟨k3, v3⟩ := hd
      by_cases h3 : k3 = k
      · subst h3
        by_cases h2 : k2 = k3
        · subst h2; simp [dictInsert, List.lookup]
        · have hb : (k2 == k3) = false := beq_eq_false_iff_ne.mpr h2
          simp [dictInsert, List.lookup, hb, h2]
      · by_cases h2 : k2 = k3
        · subst h2
          simp [dictInsert, List.lookup, h3]
        · have hb2 : (k2 == k3) = false := beq_eq_false_iff_ne.mpr h2
          simp [dictInsert, List.lookup, h3, hb2, h2, ih]

/-- Every binding in the source-keyed dict that `is_valid` builds comes from
the initial dict or from one of the active workers. -/
lemma lookup_remaining_mem (l : List (String × Transfer)) :
    ∀ (init : List (String × (String × String))) (k : String) (v : String × String),
      (l.foldl (fun d p => dictInsert p.2.src (p.2.src, p.2.dst) d) init).lookup k
        = some v →
      init.lookup k = some v ∨ ∃ p ∈ l, p.2.src = k ∧ v = (p.2.src, p.2.dst) := by
  induction l with
  | nil => intro init k v h; exact Or.inl h
  | cons hd tl ih =>
      intro init k v h
      rw [List.foldl_cons] at h
      rcases ih _ k v h with h2 | h2
      · rw [dictInsert_lookup] at h2
        by_cases hk : k = hd.2.src
        · refine Or.inr ⟨hd, List.mem_cons_self _ _, hk.symm, ?_⟩
          rw [if_pos hk] at h2
          exact (Option.some.inj h2).symm
        · rw [if_neg hk] at h2
          exact Or.inl h2
      · obtain ⟨p, hp, h3, h4⟩ := h2
        exact Or.inr ⟨p, List.mem_cons_of_mem _ hp, h3, h4⟩

/-- When `is_valid` rejects a worker, some currently-active job has the
identical (source, destination) pair. -/
lemma is_valid_false_mem (m : WorkerManager) (w : Transfer)
    (h : WorkerManager.is_valid m w = false) :
    ∃ p ∈ m.active_workers, p.2.src = w.src ∧ p.2.dst = w.dst := by
  unfold WorkerManager.is_valid at h
  cases hlk : (m.active_workers.foldl
      (fun d p => dictInsert p.2.src (p.2.src, p.2.dst) d) []).lookup w.src with
  | none => rw [hlk] at h; simp at h
  | some sd =>
      rw [hlk] at h
      simp only [Bool.not_eq_false', Bool.and_eq_true, beq_iff_eq] at h
      rcases lookup_remaining_mem m.active_workers [] w.src sd hlk with h2 | h2
      · simp [List.lookup] at h2
      · obtain ⟨p, hp, h3, h4⟩ := h2
        refine ⟨p, hp, h3, ?_⟩
        have hd := h.2
        rw [h4] at hd
        exact hd

/-- C4 (amended): a submission that the coordinator rejects is a complete
no-op — the whole coordinator state (active map, totals, queue, connected
signals) is unchanged — and a rejection only happens when some
currently-active job has the identical (source, destination) pair.  (The
converse fails: the check consults only the most-recently-registered active
job per source path, see the counterexample.) -/
theorem enqueue_rejected_noop (m : WorkerManager) (w : Transfer)
    (h : WorkerManager.is_valid m w = false) :
    WorkerManager.enqueue m w = m ∧
    ∃ p ∈ m.active_workers, p.2.src = w.src ∧ p.2.dst = w.dst := by
  refine ⟨?_, is_valid_false_mem m w h⟩
  simp [WorkerManager.enqueue, h]

/-- First worker: source "s" to destination "d1". -/
def dupW1 : Transfer := { src := "s", dst := "d1", size := 5, running := 1, job_id := "id1" }

/-- Second worker: same source "s", different destination "d2". -/
def dupW2 : Transfer := { src := "s", dst := "d2", size := 7, running := 1, job_id := "id2" }

/-- Third worker: the identical (source, destination) pair as `dupW1`. -/
def dupW3 : Transfer := { src := "s", dst := "d1", size := 5, running := 1, job_id := "id3" }

/-- Coordinator state with two active jobs sharing source "s" with distinct
destinations. -/
def dupState : WorkerManager :=
  WorkerManager.enqueue (WorkerManager.enqueue WorkerManager.initial dupW1) dupW2

/-- C4 counterexample: `dupState` has an active job (`dupW1`) whose
(source, destination) pair is identical to that of the incoming `dupW3`, yet
the submission is *not* a no-op: the job count and active map grow, because
the source-keyed dict comprehension in `is_valid` lets the later job `dupW2`
shadow `dupW1`. -/
theorem enqueue_duplicate_pair_accepted :
    ("id1", dupW1) ∈ dupState.active_workers ∧
    dupW1.src = dupW3.src ∧ dupW1.dst = dupW3.dst ∧
    (WorkerManager.enqueue dupState dupW3).total_workers
      = dupState.total_workers + 1 ∧
    (WorkerManager.enqueue dupState dupW3).active_workers.length
      = dupState.active_workers.length + 1 := by
  decide

/-- Coordinator state with only `dupW1` active. -/
def dupStateOne : WorkerManager := WorkerManager.enqueue WorkerManager.initial dupW1

/-- Witness for the amended C4: resubmitting `dupW1`'s pair (as `dupW3`)
while `dupW1` is the only active job is a complete no-op. -/
theorem enqueue_rejected_noop_witness :
    WorkerManager.enqueue dupStateOne dupW3 = dupStateOne ∧
    ∃ p ∈ dupStateOne.active_workers, p.2.src = dupW3.src ∧ p.2.dst = dupW3.dst :=
  enqueue_rejected_noop dupStateOne dupW3 (by decide)

/-- First submitted job used in the aggregation states (10 MiB). -/
def meanW1 : Transfer :=
  { src := "s1", dst := "d1", size := 10485760, running := 1, job_id := "j1" }

/-- Second submitted job used in the aggregation states (30 MiB). -/
def meanW2 : Transfer :=
  { src := "s2", dst := "d2", size := 31457280, running := 1, job_id := "j2" }

/-- A reachable coordinator state: two jobs submitted, only the first has
reported a percentage (50) so far. -/
def meanState : WorkerManager :=
  WorkerManager.receive_progress
    (WorkerManager.enqueue (WorkerManager.enqueue WorkerManager.initial meanW1) meanW2)
    "j1" 50

/-- C2 counterexample: with two submitted jobs of which only one has reported
(at 50), `calculate_progress` yields 50 / 2 = 25 — the sum of tracked
percentages divided by the *total submitted job count* — while the arithmetic
mean of the tracked per-job percentages is 50. -/
theorem calculate_progress_not_mean_of_tracked :
    WorkerManager.calculate_progress meanState = 25 ∧
    spec_mean_tracked meanState = 50 ∧
    WorkerManager.calculate_progress meanState ≠ spec_mean_tracked meanState := by
  have hw : meanState.workers_progress = [("j1", (50 : ℚ))] := rfl
  have ht : meanState.total_workers = 2 := rfl
  refine ⟨?_, ?_, ?_⟩ <;>
    norm_num [WorkerManager.calculate_progress, spec_mean_tracked, hw, ht]

/-- C2 (amended): the combined percentage is 0 when no job has reported yet,
and equals the sum of tracked per-job percentages divided by the total
submitted job count; this coincides with the arithmetic mean of the tracked
percentages exactly when every submitted job has reported at least once
(tracked count = total job count) — in particular, for two submitted jobs
that have both reported, it is the unweighted mean of their two percentages
regardless of their sizes. -/
theorem calculate_progress_total_mean (m : WorkerManager) :
    (m.workers_progress = [] → WorkerManager.calculate_progress m = 0) ∧
    (m.workers_progress.length = m.total_workers →
      WorkerManager.calculate_progress m = spec_mean_tracked m) := by
  constructor
  · intro h
    simp [WorkerManager.calculate_progress, h]
  · intro h
    unfold WorkerManager.calculate_progress spec_mean_tracked
    by_cases he : m.workers_progress = []
    · simp [he]
    · have ht : ¬ m.total_workers = 0 := by
        rw [← h]
        exact (List.length_pos.mpr he).ne'
      rw [if_neg (not_or.mpr ⟨he, ht⟩), if_neg he, ← h]

/-- State `meanState` after the second job also reports (80): every submitted job
is now tracked. -/
def meanStateFull : WorkerManager := WorkerManager.receive_progress meanState "j2" 80

/-- Witness for the amended C2: with both jobs reporting (50 and 80), the
combined percentage is exactly their unweighted mean. -/
theorem calculate_progress_total_mean_witness :
    WorkerManager.calculate_progress meanStateFull = spec_mean_tracked meanStateFull :=
  (calculate_progress_total_mean meanStateFull).2 (by decide)

/-- A list of rationals bounded by `c` sums to at most `c` times its length. -/
lemma list_sum_le_card_mul (l : List ℚ) (c : ℚ) (h : ∀ x ∈ l, x ≤ c) :
    l.sum ≤ c * l.length := by
  induction l with
  | nil => simp
  | cons a tl ih =>
      have ha : a ≤ c := h a (List.mem_cons_self a tl)
      have htl : tl.sum ≤ c * tl.length := ih fun x hx => h x (List.mem_cons_of_mem a hx)
      simp only [List.sum_cons, List.length_cons]
      push_cast
      linarith

/-- A list all of whose entries are `c` sums to `c` times its length. -/
lemma list_sum_const_mul (l : List ℚ) (c : ℚ) (h : ∀ x ∈ l, x = c) :
    l.sum = c * l.length := by
  induction l with
  | nil => simp
  | cons a tl ih =>
      have ha : a = c := h a (List.mem_cons_self a tl)
      have htl : tl.sum = c * tl.length := ih fun x hx => h x (List.mem_cons_of_mem a hx)
      simp only [List.sum_cons, List.length_cons]
      push_cast
      linarith

/-- C5: whenever every tracked percentage is at most 100 and at most
`total_workers` jobs are tracked (as is the case for a batch of N submitted
jobs reporting monotonically up to 100), the combined percentage never
exceeds 100; and once every one of the N = `total_workers` jobs has reported
exactly 100, the combined percentage equals exactly 100. -/
theorem calculate_progress_le_hundred (m : WorkerManager)
    (hle : ∀ p ∈ m.workers_progress, p.2 ≤ 100)
    (hcount : m.workers_progress.length ≤ m.total_workers) :
    WorkerManager.calculate_progress m ≤ 100 ∧
    ((∀ p ∈ m.workers_progress, p.2 = 100) →
      m.workers_progress.length = m.total_workers →
      m.workers_progress ≠ [] →
      WorkerManager.calculate_progress m = 100) := by
  constructor
  · unfold WorkerManager.calculate_progress
    by_cases hg : m.workers_progress = [] ∨ m.total_workers = 0
    · rw [if_pos hg]; norm_num
    · rw [if_neg hg]
      push_neg at hg
      have ht : 0 < (m.total_workers : ℚ) := by
        exact_mod_cast Nat.pos_of_ne_zero hg.2
      rw [div_le_iff₀ ht]
      have h1 : (m.workers_progress.map Prod.snd).sum
          ≤ 100 * ((m.workers_progress.map Prod.snd).length : ℚ) :=
        list_sum_le_card_mul _ 100 (by
          intro x hx
          obtain ⟨p, hp, rfl⟩ := List.mem_map.mp hx
          exact hle p hp)
      have h2 : ((m.workers_progress.map Prod.snd).length : ℚ)
          ≤ (m.total_workers : ℚ) := by
        rw [List.length_map]
        exact_mod_cast hcount
      nlinarith
  · intro hall hlen hne
    unfold WorkerManager.calculate_progress
    have ht : ¬ m.total_workers = 0 := by
      rw [← hlen]
      exact (List.length_pos.mpr hne).ne'
    rw [if_neg (not_or.mpr ⟨hne, ht⟩)]
    have h1 : (m.workers_progress.map Prod.snd).sum
        = 100 * ((m.workers_progress.map Prod.snd).length : ℚ) :=
      list_sum_const_mul _ 100 (by
        intro x hx
        obtain ⟨p, hp, rfl⟩ := List.mem_map.mp hx
        exact hall p hp)
    have ht2 : (m.total_workers : ℚ) ≠ 0 := by exact_mod_cast ht
    rw [h1, List.length_map, hlen, mul_div_assoc, div_self ht2, mul_one]

/-- The two-job batch with both jobs having reported 100. -/
def allDoneState : WorkerManager :=
  WorkerManager.receive_progress
    (WorkerManager.receive_progress
      (WorkerManager.enqueue (WorkerManager.enqueue WorkerManager.initial meanW1) meanW2)
      "j1" 100)
    "j2" 100

/-- Witness for C5: at the state where both jobs of the batch have reported
100, the combined percentage is bounded by 100 and equals exactly 100. -/
theorem calculate_progress_le_hundred_witness :
    WorkerManager.calculate_progress allDoneState ≤ 100 ∧
    WorkerManager.calculate_progress allDoneState = 100 :=
  ⟨(calculate_progress_le_hundred allDoneState (by decide) (by decide)).1,
   (calculate_progress_le_hundred allDoneState (by decide) (by decide)).2
     (by decide) (by decide) (by decide)⟩

/-- One step of the `readinto` loop when a non-empty chunk is read and the
`running` flag is still true at the post-chunk check. -/
lemma readinto_cons_continue (jobId : String) (size : ℚ) (cancelAfter : ℕ)
    (c : ℕ) (hc : ¬ c = 0) (rest : List (Option ℕ)) (d bytes : ℕ)
    (h : d + 1 < cancelAfter) :
    Transfer._copyfileobj_readinto jobId size cancelAfter (some c :: rest) d bytes =
      ([Event.transferred jobId ((bytes + c : ℕ) : ℚ),
        Event.progress jobId (((bytes + c : ℕ) : ℚ) * 100 / size)] ++
        (Transfer._copyfileobj_readinto jobId size cancelAfter rest (d + 1) (bytes + c)).1,
       (Transfer._copyfileobj_readinto jobId size cancelAfter rest (d + 1) (bytes + c)).2.1,
       (Transfer._copyfileobj_readinto jobId size cancelAfter rest (d + 1) (bytes + c)).2.2) := by
  simp only [Transfer._copyfileobj_readinto, if_neg hc, if_pos h]

/-- One step of the `readinto` loop when a non-empty chunk is read and the
`running` flag reads false at the post-chunk check: emit the final progress
event of 100 and the finished event and return `ON_CANCEL`. -/
lemma readinto_cons_cancel (jobId : String) (size : ℚ) (cancelAfter : ℕ)
    (c : ℕ) (hc : ¬ c = 0) (rest : List (Option ℕ)) (d bytes : ℕ)
    (h : ¬ d + 1 < cancelAfter) :
    Transfer._copyfileobj_readinto jobId size cancelAfter (some c :: rest) d bytes =
      ([Event.transferred jobId ((bytes + c : ℕ) : ℚ),
        Event.progress jobId (((bytes + c : ℕ) : ℚ) * 100 / size),
        Event.progress jobId 100, Event.finished jobId],
       ON_CANCEL, bytes + c) := by
  simp only [Transfer._copyfileobj_readinto, if_neg hc, if_neg h]
  rfl

/-- The cancel path of the `readinto` loop: with at least `j ≥ 1` positive
chunks remaining and the `running` flag turning false once `j` more chunks
are processed, the loop writes exactly those `j` chunks, ends its trace with
a progress event of 100 followed by the finished event, and returns
`ON_CANCEL`. -/
lemma readinto_cancel_aux (jobId : String) (size : ℚ) :
    ∀ (chunks : List ℕ) (j d bytes : ℕ),
      1 ≤ j → j ≤ chunks.length → (∀ c ∈ chunks, c ≠ 0) →
      ∃ pre,
        Transfer._copyfileobj_readinto jobId size (d + j) (chunks.map some) d bytes =
          (pre ++ [Event.progress jobId 100, Event.finished jobId], ON_CANCEL,
           bytes + (chunks.take j).sum) := by
  intro chunks
  induction chunks with
  | nil =>
      intro j d bytes hj hlen hpos
      simp at hlen
      omega
  | cons c rest ih =>
      intro j d bytes hj hlen hpos
      have hc : ¬ c = 0 := hpos c (List.mem_cons_self _ _)
      rcases Nat.lt_or_ge 1 j with hj2 | hj2
      · -- at least one more chunk after this one: the loop continues
        have hcond : d + 1 < d + j := by omega
        obtain ⟨j2, rfl⟩ : ∃ j2, j = j2 + 1 := ⟨j - 1, by omega⟩
        have hj2' : 1 ≤ j2 := by omega
        have hlen' : j2 ≤ rest.length := by
          simpa using Nat.le_of_succ_le_succ hlen
        have hstep := readinto_cons_continue jobId size (d + (j2 + 1)) c hc
          (rest.map some) d bytes hcond
        have harg : d + (j2 + 1) = (d + 1) + j2 := by omega
        obtain ⟨pre, hrec⟩ := ih j2 (d + 1) (bytes + c) hj2' hlen'
          (fun x hx => hpos x (List.mem_cons_of_mem _ hx))
        rw [harg] at hstep
        refine ⟨[Event.transferred jobId ((bytes + c : ℕ) : ℚ),
                 Event.progress jobId (((bytes + c : ℕ) : ℚ) * 100 / size)] ++ pre, ?_⟩
        rw [harg, List.map_cons] at *
        rw [hstep, hrec]
        simp [List.take_succ_cons]
        omega
      · -- this is the chunk at which the flag is observed false
        have hj1 : j = 1 := by omega
        subst hj1
        have hcond : ¬ d + 1 < d + 1 := by omega
        have hstep := readinto_cons_cancel jobId size (d + 1) c hc
          (rest.map some) d bytes hcond
        refine ⟨[Event.transferred jobId ((bytes + c : ℕ) : ℚ),
                 Event.progress jobId (((bytes + c : ℕ) : ℚ) * 100 / size)], ?_⟩
        rw [List.map_cons, hstep]
        simp

/-- C6: if cancellation is observed at the check after chunk `k`
(`1 ≤ k ≤` number of chunks, i.e. after the first chunk and before end of
stream), `Transfer.copy` ends its event trace with a final progress event of
100 followed by a finished event, returns outcome `ON_CANCEL` having written
only the first `k` chunks, and then permanently deletes the partially-written
destination file via `unlink` (not a reversible trash operation), so the
destination path does not exist afterwards. -/
theorem cancelled_copy_deletes_dst (t : Transfer) (chunks : List ℕ) (k : ℕ) (b : Bool)
    (hpos : ∀ c ∈ chunks, c ≠ 0) (hk : 1 ≤ k) (hlen : k ≤ chunks.length)
    (hsize : 0 < t.size) :
    (Transfer.copy t OpenOutcome.ok (chunks.map some) k b).outcome = ON_CANCEL ∧
    (∃ pre, (Transfer.copy t OpenOutcome.ok (chunks.map some) k b).events =
      pre ++ [Event.progress t.job_id 100, Event.finished t.job_id]) ∧
    (Transfer.copy t OpenOutcome.ok (chunks.map some) k b).bytesWritten =
      (chunks.take k).sum ∧
    (Transfer.copy t OpenOutcome.ok (chunks.map some) k b).deleteOp =
      some DeleteOp.unlinkOp ∧
    (Transfer.copy t OpenOutcome.ok (chunks.map some) k b).dstExistsAfter = false := by
  obtain ⟨pre, heq⟩ := readinto_cancel_aux t.job_id t.size chunks k 0 0 hk hlen hpos
  rw [Nat.zero_add] at heq
  have hcopy : Transfer._copyfile t OpenOutcome.ok (chunks.map some) k =
      (pre ++ [Event.progress t.job_id 100, Event.finished t.job_id], ON_CANCEL,
       0 + (chunks.take k).sum) := by
    simp only [Transfer._copyfile, if_pos hsize]
    exact heq
  refine ⟨?_, ⟨pre, ?_⟩, ?_, ?_, ?_⟩ <;>
    simp [Transfer.copy, hcopy, delete_file, ON_CANCEL]

/-- Transfer used by the cancellation witness (declared size 4 bytes). -/
def cancelTransfer : Transfer :=
  { src := "/src/c.bin", dst := "/dst/c.bin", size := 4, running := 1, job_id := "jc" }

/-- Witness for C6: cancellation observed after the first of two 2-byte
chunks of a 4-byte transfer. -/
theorem cancelled_copy_deletes_dst_witness :
    (Transfer.copy cancelTransfer OpenOutcome.ok ([2, 2].map some) 1 false).outcome
      = ON_CANCEL ∧
    (∃ pre, (Transfer.copy cancelTransfer OpenOutcome.ok ([2, 2].map some) 1 false).events =
      pre ++ [Event.progress cancelTransfer.job_id 100,
              Event.finished cancelTransfer.job_id]) ∧
    (Transfer.copy cancelTransfer OpenOutcome.ok ([2, 2].map some) 1 false).bytesWritten =
      ([2, 2].take 1).sum ∧
    (Transfer.copy cancelTransfer OpenOutcome.ok ([2, 2].map some) 1 false).deleteOp =
      some DeleteOp.unlinkOp ∧
    (Transfer.copy cancelTransfer OpenOutcome.ok ([2, 2].map some) 1 false).dstExistsAfter
      = false :=
  cancelled_copy_deletes_dst cancelTransfer [2, 2] 1 false (by decide) (by decide)
    (by decide) (by norm_num [cancelTransfer])

/-- Invariant of the `readinto` loop underlying the per-job monotonicity
claim: starting from `bytes` bytes already moved (with all remaining reads
positive and the total bounded by the declared size), the progress values
still to be emitted continue the non-decreasing chain starting at the current
percentage; on cancel or error the last emitted progress value is 100; on
success the last emitted progress value (or the current percentage, if no
chunk remains) is the percentage of all bytes moved. -/
lemma readinto_progress_aux (jobId : String) (size : ℚ) (hsize : 0 < size)
    (cancelAfter : ℕ) :
    ∀ (src : List (Option ℕ)) (d bytes : ℕ),
      (∀ n ∈ src.filterMap id, 0 < n) →
      ((bytes : ℚ) + ((src.filterMap id).sum : ℚ) ≤ size) →
      List.Chain' (· ≤ ·) (((bytes : ℚ) * 100 / size) ::
        progressValues
          (Transfer._copyfileobj_readinto jobId size cancelAfter src d bytes).1) ∧
      ((Transfer._copyfileobj_readinto jobId size cancelAfter src d bytes).2.1 = ON_CANCEL ∨
        (Transfer._copyfileobj_readinto jobId size cancelAfter src d bytes).2.1 = ON_ERROR →
        (progressValues
          (Transfer._copyfileobj_readinto jobId size cancelAfter src d bytes).1).getLast?
          = some 100) ∧
      ((Transfer._copyfileobj_readinto jobId size cancelAfter src d bytes).2.1 = ON_SUCCESS →
        (progressValues
          (Transfer._copyfileobj_readinto jobId size cancelAfter src d bytes).1).getLastD
            ((bytes : ℚ) * 100 / size)
          = ((bytes + (src.filterMap id).sum : ℕ) : ℚ) * 100 / size) := by
  intro src
  induction src with
  | nil =>
      intro d bytes hpos hbound
      refine ⟨?_, ?_, ?_⟩
      · exact List.chain'_singleton _
      · intro h
        simp [Transfer._copyfileobj_readinto, ON_SUCCESS, ON_CANCEL, ON_ERROR] at h
      · intro _
        simp [Transfer._copyfileobj_readinto, progressValues]
  | cons o tail ih =>
      intro d bytes hpos hbound
      match o with
      | none =>
          have hres : Transfer._copyfileobj_readinto jobId size cancelAfter
              (none :: tail) d bytes
              = ([Event.progress jobId 100, Event.finished jobId], ON_ERROR, bytes) := rfl
          have hpv : progressValues (Transfer._copyfileobj_readinto jobId size cancelAfter
              (none :: tail) d bytes).1 = [100] := by rw [hres]; rfl
          have hfm : ((none :: tail : List (Option ℕ)).filterMap id)
              = tail.filterMap id := rfl
          have hsum0 : (0 : ℚ) ≤ ((tail.filterMap id).sum : ℚ) := by positivity
          rw [hfm] at hbound
          have hp100 : (bytes : ℚ) * 100 / size ≤ 100 := by
            rw [div_le_iff₀ hsize]
            nlinarith
          refine ⟨?_, ?_, ?_⟩
          · rw [hpv]
            exact List.chain'_cons.mpr ⟨hp100, List.chain'_singleton _⟩
          · intro _
            rw [hpv]
            rfl
          · intro h
            rw [hres] at h
            simp [ON_ERROR, ON_SUCCESS] at h
      | some n =>
          have hn : 0 < n := hpos n (by simp)
          have hc : ¬ n = 0 := by omega
          have hfm : ((some n :: tail : List (Option ℕ)).filterMap id)
              = n :: tail.filterMap id := rfl
          rw [hfm, List.sum_cons, Nat.cast_add] at hbound
          have hsum0 : (0 : ℚ) ≤ ((tail.filterMap id).sum : ℚ) := by positivity
          have hmono : (bytes : ℚ) * 100 / size ≤ ((bytes + n : ℕ) : ℚ) * 100 / size := by
            gcongr
            exact_mod_cast Nat.le_add_right bytes n
          have hple : ((bytes + n : ℕ) : ℚ) * 100 / size ≤ 100 := by
            rw [div_le_iff₀ hsize]
            push_cast
            nlinarith
          have hpos' : ∀ x ∈ tail.filterMap id, 0 < x :=
            fun x hx => hpos x (by rw [hfm]; exact List.mem_cons_of_mem _ hx)
          have hbound' : (((bytes + n : ℕ)) : ℚ) + ((tail.filterMap id).sum : ℚ) ≤ size := by
            rw [Nat.cast_add]
            linarith
          by_cases hcase : d + 1 < cancelAfter
          · -- loop continues into the tail
            have hres := readinto_cons_continue jobId size cancelAfter n hc tail d bytes hcase
            obtain ⟨ihChain, ihCancel, ihSuccess⟩ := ih (d + 1) (bytes + n) hpos' hbound'
            have hpv : progressValues (Transfer._copyfileobj_readinto jobId size cancelAfter
                (some n :: tail) d bytes).1
                = ((bytes + n : ℕ) : ℚ) * 100 / size ::
                  progressValues (Transfer._copyfileobj_readinto jobId size cancelAfter
                    tail (d + 1) (bytes + n)).1 := by
              rw [hres]
              simp [progressValues, List.filterMap_append]
            have hout : (Transfer._copyfileobj_readinto jobId size cancelAfter
                (some n :: tail) d bytes).2.1
                = (Transfer._copyfileobj_readinto jobId size cancelAfter
                    tail (d + 1) (bytes + n)).2.1 := by rw [hres]
            refine ⟨?_, ?_, ?_⟩
            · rw [hpv]
              exact List.chain'_cons.mpr ⟨hmono, ihChain⟩
            · intro h
              rw [hout] at h
              have hl := ihCancel h
              rw [hpv]
              cases hpl : progressValues (Transfer._copyfileobj_readinto jobId size cancelAfter
                  tail (d + 1) (bytes + n)).1 with
              | nil => rw [hpl] at hl; simp at hl
              | cons a l =>
                  rw [hpl] at hl
                  rw [List.getLast?_cons_cons]
                  exact hl
            · intro h
              rw [hout] at h
              have hl := ihSuccess h
              rw [hpv, List.getLastD_cons, hl, hfm, List.sum_cons]
              have hnat : bytes + n + (tail.filterMap id).sum
                  = bytes + (n + (tail.filterMap id).sum) := by omega
              rw [hnat]
          · -- the flag is observed false after this chunk: cancel
            have hres := readinto_cons_cancel jobId size cancelAfter n hc tail d bytes hcase
            have hpv : progressValues (Transfer._copyfileobj_readinto jobId size cancelAfter
                (some n :: tail) d bytes).1
                = [((bytes + n : ℕ) : ℚ) * 100 / size, 100] := by
              rw [hres]
              rfl
            refine ⟨?_, ?_, ?_⟩
            · rw [hpv]
              exact List.chain'_cons.mpr ⟨hmono,
                List.chain'_cons.mpr ⟨hple, List.chain'_singleton _⟩⟩
            · intro _
              rw [hpv]
              rfl
            · intro h
              rw [hres] at h
              simp [ON_CANCEL, ON_SUCCESS] at h

/-- C9: for a job run through the chunked `readinto` loop whose source yields
only positive chunks totalling at most the declared size (the claim's
"declared size equals the bytes the source actually yields"), the sequence of
percentages carried by its progress events is monotonically non-decreasing up
to and including the terminal event; on cancel and error the final emitted
progress value is exactly 100, and on success — when the yielded total equals
the declared size — the final emitted progress value is exactly 100 as well. -/
theorem job_progress_monotone (t : Transfer) (src : List (Option ℕ)) (cancelAfter : ℕ)
    (hsize : 0 < t.size)
    (hpos : ∀ n ∈ src.filterMap id, 0 < n)
    (hbound : ((src.filterMap id).sum : ℚ) ≤ t.size) :
    List.Chain' (· ≤ ·)
      (progressValues
        (Transfer._copyfileobj_readinto t.job_id t.size cancelAfter src 0 0).1) ∧
    ((Transfer._copyfileobj_readinto t.job_id t.size cancelAfter src 0 0).2.1 = ON_CANCEL ∨
      (Transfer._copyfileobj_readinto t.job_id t.size cancelAfter src 0 0).2.1 = ON_ERROR →
      (progressValues
        (Transfer._copyfileobj_readinto t.job_id t.size cancelAfter src 0 0).1).getLast?
        = some 100) ∧
    ((Transfer._copyfileobj_readinto t.job_id t.size cancelAfter src 0 0).2.1 = ON_SUCCESS →
      ((src.filterMap id).sum : ℚ) = t.size →
      (progressValues
        (Transfer._copyfileobj_readinto t.job_id t.size cancelAfter src 0 0).1).getLastD 0
        = 100) := by
  obtain ⟨hchain, hcancel, hsuccess⟩ :=
    readinto_progress_aux t.job_id t.size hsize cancelAfter src 0 0 hpos
      (by simpa using hbound)
  refine ⟨hchain.tail, hcancel, ?_⟩
  intro h hsum
  have h2 := hsuccess h
  have hd : ((0 : ℕ) : ℚ) * 100 / t.size = 0 := by norm_num
  rw [hd, Nat.zero_add] at h2
  rw [h2, hsum, mul_comm, mul_div_assoc, div_self hsize.ne', mul_one]

/-- Transfer used by the monotonicity witness (declared size 4 bytes). -/
def monoTransfer : Transfer :=
  { src := "/src/m.bin", dst := "/dst/m.bin", size := 4, running := 1, job_id := "jm" }

/-- Witness for C9: a 4-byte transfer read as two positive 2-byte chunks and
never cancelled. -/
theorem job_progress_monotone_witness :
    List.Chain' (· ≤ ·)
      (progressValues (Transfer._copyfileobj_readinto monoTransfer.job_id
        monoTransfer.size 5 [some 2, some 2] 0 0).1) ∧
    ((Transfer._copyfileobj_readinto monoTransfer.job_id monoTransfer.size 5
        [some 2, some 2] 0 0).2.1 = ON_CANCEL ∨
      (Transfer._copyfileobj_readinto monoTransfer.job_id monoTransfer.size 5
        [some 2, some 2] 0 0).2.1 = ON_ERROR →
      (progressValues (Transfer._copyfileobj_readinto monoTransfer.job_id
        monoTransfer.size 5 [some 2, some 2] 0 0).1).getLast? = some 100) ∧
    ((Transfer._copyfileobj_readinto monoTransfer.job_id monoTransfer.size 5
        [some 2, some 2] 0 0).2.1 = ON_SUCCESS →
      (((([some 2, some 2] : List (Option ℕ)).filterMap id).sum : ℕ) : ℚ)
        = monoTransfer.size →
      (progressValues (Transfer._copyfileobj_readinto monoTransfer.job_id
        monoTransfer.size 5 [some 2, some 2] 0 0).1).getLastD 0 = 100) :=
  job_progress_monotone monoTransfer [some 2, some 2] 5
    (by norm_num [monoTransfer]) (by decide)
    (by show ((4 : ℕ) : ℚ) ≤ (4 : ℚ); norm_num)
